import Mathlib

/-!
Verification development for the `ixa-entities` repository: a shallow
embedding of its entity/property storage core (type registry, property
lists, orchestrator `Context`) together with theorems settling the
specification's claims against the code.

Rust `TypeId`s are modelled as `Nat`; property values are erased to `Nat`
(the claims do not depend on per-property value types); panics are
modelled as `Except.error` carrying the panic message.
-/

namespace IxaEntities

/-- The statically known data of one `Property` implementor as used by
`src/property_list.rs`: its `TypeId` (`pid`), its owning entity's `TypeId`
(`P::Entity::type_id()`, `eid`) and its `name()`. -/
structure PropInfo where
  pid : Nat
  eid : Nat
  name : String
deriving Repr, DecidableEq, Inhabited

/-- The duplicate-property error message built by the `impl_property_list`
macro (src/property_list.rs lines 75-80). -/
def dupMsg (nm : String) (n j : Nat) : String :=
  "property " ++ nm ++ " appears in both position " ++ toString n ++ " and "
    ++ toString j ++ " in the property list"

/-- The entity-mismatch error message built by the `impl_property_list`
macro (src/property_list.rs lines 85-89). -/
def entityMsg (n1 n2 : String) : String :=
  "properties " ++ n1 ++ " and " ++ n2 ++ " are not properties of the same entity."

/-- One unrolled step of the body generated by `seq!(N in 1..=$ct ...)` in
`impl_property_list` (src/property_list.rs lines 70-91), iterated over the
remaining values of `N`.  `ids` is the array `property_type_ids` (so
`ids[i]` holds `P(i+1)::type_id()`), `expected` is `P1::Entity::type_id()`
and `ct` is the tuple arity.  Faithfully to the macro expansion, iteration
`N` compares `property_type_ids[N]` (not `N-1`) with `property_type_ids[j]`
for `j` in `(N+1)..ct`, and on a hit reports `P~N::name()` with positions
`N` and `j`; then it compares `P~N::Entity::type_id()` with `expected`. -/
def validateSteps (ps : List PropInfo) (ids : List Nat) (expected : Nat)
    (ct : Nat) : List Nat → Except String Unit
  | [] => .ok ()
  | n :: rest =>
    match (List.range' (n + 1) (ct - (n + 1))).find?
        (fun j => ids.getD n 0 == ids.getD j 0) with
    | some j => .error (dupMsg (ps.getD (n - 1) default).name n j)
    | none =>
      if expected == (ps.getD (n - 1) default).eid then
        validateSteps ps ids expected ct rest
      else
        .error (entityMsg (ps.getD 0 default).name (ps.getD (n - 1) default).name)

/-- `PropertyList::validate()` from src/property_list.rs.  The impls for
`()`, a single property and a 1-tuple (lines 36-54) return `Ok(())`; the
impls for arities 2..=5 are generated by `impl_property_list` (lines
59-103) and are modelled by `validateSteps` run over `N in 1..=ct`. -/
def PropertyList.validate (ps : List PropInfo) : Except String Unit :=
  if ps.length ≤ 1 then .ok ()
  else
    validateSteps ps (ps.map (·.pid)) (ps.getD 0 default).eid ps.length
      (List.range' 1 ps.length)

/-- Reference scanner used to characterise the entity-consistency part of
`PropertyList.validate`: walk the list in order, failing at the first
element whose owning entity differs from `e0` (the first element's
entity), with the error naming `n0` (the first property's name) and the
offending element. -/
def entityScan (e0 : Nat) (n0 : String) : List PropInfo → Except String Unit
  | [] => .ok ()
  | p :: rest =>
    if e0 == p.eid then entityScan e0 n0 rest
    else .error (entityMsg n0 p.name)

/-- Index of the first element whose owning entity differs from `e0`, if
any.  Statement-side helper for the entity-consistency theorems. -/
def firstMismatch (e0 : Nat) : List PropInfo → Option Nat
  | [] => none
  | p :: rest =>
    if p.eid == e0 then (firstMismatch e0 rest).map (· + 1) else some 0

/-! ## The orchestrator (`Context`) and its collaborators

src/context.rs is the authority for the orchestration logic.  The modules
it relies on (`entity_store.rs`, `property_store.rs`,
`property_value_store.rs`, `property.rs`, `entity/property_list.rs`) are
declared in src/lib.rs but absent from src/; those parts are modelled
from the spec, each marked `Modelled from the spec:` in its doc comment.
Property values are erased to `Nat`; panics are `Except.error` carrying
the panic message. -/

/-- Property values, erased to `Nat` (the claims are independent of the
per-property value types). -/
abbrev Value := Nat

/-- The orchestrator state (src/context.rs `Context`): the `EntityStore`'s
per-entity-type allocation counters, and one sparse value store per
property type id, addressed by handle sequence number. -/
structure Context where
  entityCounts : Nat → Nat
  stores : Nat → Nat → Option Value

/-- `PropertyInitializationKind` from the absent `property.rs`, as matched
on in src/context.rs lines 49-65 and documented in spec §4.4. -/
inductive PropertyInitializationKind
  | Explicit
  | Derived
  | Constant
deriving DecidableEq, BEq, Repr

/-- The static data of one `Property` implementor as produced by
`impl_property` (src/property_impl.rs lines 103-154): its `TypeId`
(`pid`), owning entity (`eid`), `initialization_kind()`, `is_required()`,
`default_const()` (modelled as `Option` since reading it is a panic when
absent), `compute_derived()` and `name()`. -/
structure PropertySpec where
  pid : Nat
  eid : Nat
  kind : PropertyInitializationKind
  is_required : Bool
  default_const : Option Value
  compute_derived : Context → Nat → Value
  name : String

/-- Modelled from the spec: src/ lacks `property_value_store.rs` and
`value_vec.rs`.  Per §4.2 the sparse store's observable behaviour is
"`get(i)` returns unset for `i` past the current length without growing;
`set(i, v)` grows the array (filling new slots as unset) if needed, then
stores `v` at `i`".  Each per-property store is modelled as a total map
from handle sequence number to an optional value, which realises exactly
that observable behaviour. -/
def PropertyValueStore.get (c : Context) (pid i : Nat) : Option Value :=
  c.stores pid i

/-- Modelled from the spec: the write half of the sparse store (§4.2). -/
def PropertyValueStore.set (c : Context) (pid i : Nat) (v : Value) : Context :=
  { c with
    stores := fun p j => if p = pid ∧ j = i then some v else c.stores p j }

/-- Panic message of the `Explicit` unset read (src/context.rs line 53). -/
def explicitUnsetMsg : String :=
  "attempted to get a property value with \"explicit\" initialization that was not set"

/-- Panic message of the `Constant` unset read (src/context.rs line 63). -/
def constantUnsetMsg : String :=
  "getting a property value with \"constant\" initialization should never fail"

/-- `Context::get_property` (src/context.rs lines 44-66): dispatch on the
property's initialization kind; `Explicit` and `Constant` read the sparse
store and panic with distinct messages when the slot is unset; `Derived`
invokes the property's derivation function with the orchestrator and the
handle. -/
def Context.get_property (p : PropertySpec) (c : Context) (entity_id : Nat) :
    Except String Value :=
  match p.kind with
  | .Explicit =>
    match PropertyValueStore.get c p.pid entity_id with
    | some v => .ok v
    | none => .error explicitUnsetMsg
  | .Derived => .ok (p.compute_derived c entity_id)
  | .Constant =>
    match PropertyValueStore.get c p.pid entity_id with
    | some v => .ok v
    | none => .error constantUnsetMsg

/-- `Context::set_property` (src/context.rs lines 68-71): writes directly
into the property's sparse store, regardless of initialization kind. -/
def Context.set_property (p : PropertySpec) (c : Context) (entity_id : Nat)
    (v : Value) : Context :=
  PropertyValueStore.set c p.pid entity_id v

/-- Modelled from the spec: `entity_store.rs` is absent from src/.  Per
§4.6, `newHandle<Domain>()` returns the next unused handle for the domain
and increments that domain's counter. -/
def EntityStore.new_entity_id (c : Context) (e : Nat) : Nat × Context :=
  (c.entityCounts e,
   { c with
     entityCounts := fun x =>
       if x = e then c.entityCounts e + 1 else c.entityCounts x })

/-- Modelled from the spec: the `entity::property_list::PropertyList<E>`
trait used by src/context.rs is absent from src/.  Helper locating the
first duplicated property type: the positions of the first pair of
elements sharing a property type id, with the property's name. -/
def EntityPL.dupPositions :
    List (PropertySpec × Value) → Option (Nat × Nat × String)
  | [] => none
  | p :: rest =>
    match rest.findIdx? (fun q => q.1.pid == p.1.pid) with
    | some k => some (0, k + 1, p.1.name)
    | none =>
      (EntityPL.dupPositions rest).map fun t => (t.1 + 1, t.2.1 + 1, t.2.2)

/-- Modelled from the spec: `validate()` of the initializer-list trait
used by `Context::add_entity` — "must fail when any two elements are the
same property type (duplicate), returning an error identifying the
conflicting positions" (§4.7). -/
def EntityPL.validate (pl : List (PropertySpec × Value)) :
    Except String Unit :=
  match EntityPL.dupPositions pl with
  | some (i, j, nm) =>
    .error ("property " ++ nm ++ " appears in both position " ++ toString i
      ++ " and " ++ toString j ++ " in the property list")
  | none => .ok ()

/-- Modelled from the spec: `containsRequiredProperties()` "must succeed
only when every property marked required for the domain appears somewhere
in the list" (§4.7).  `registry` is the universe of registered property
descriptors (the ctor-registration set, spec §6). -/
def contains_required_properties (registry : List PropertySpec) (e : Nat)
    (pl : List (PropertySpec × Value)) : Bool :=
  (registry.filter fun p => p.eid == e && p.is_required).all
    fun p => pl.any fun q => q.1.pid == p.pid

/-- Modelled from the spec: `set_values_for_entity` of the
initializer-list trait — "applies every value in the list to its
corresponding sparse store at that handle" (§4.8). -/
def set_values_for_entity : List (PropertySpec × Value) → Nat → Context → Context
  | [], _, c => c
  | pv :: rest, id, c =>
    set_values_for_entity rest id (Context.set_property pv.1 c id pv.2)

/-- `Context::add_entity` (src/context.rs lines 24-42): validate the list
(duplicate check), check required coverage, and only then allocate the
new handle and apply the list's values to its stores.  The two
panics occur before any state change, so the error results carry the
caller's context unchanged. -/
def Context.add_entity (registry : List PropertySpec) (e : Nat)
    (pl : List (PropertySpec × Value)) (c : Context) :
    Except String Nat × Context :=
  match EntityPL.validate pl with
  | .error msg => (.error ("invalid property list: " ++ msg), c)
  | .ok _ =>
    if contains_required_properties registry e pl then
      let r := EntityStore.new_entity_id c e
      (.ok r.1, set_values_for_entity pl r.1 r.2)
    else
      (.error "initialization list is missing required properties", c)

/-- Modelled from the spec: `property_store.rs` is absent from src/.
Stores are created lazily per property (§4.5); for a `Constant`-kind
property "constants must be seeded at first access or at registration"
(§4.8), policy "seed the default into the store at first property-store
creation" (§9) — so the store of a registered `Constant` property begins
with every slot holding the default, and every other store begins with
every slot unset. -/
def Context.init (registry : List PropertySpec) : Context where
  entityCounts := fun _ => 0
  stores := fun pid _ =>
    match registry.find? (fun p =>
        p.pid == pid && p.kind == PropertyInitializationKind.Constant) with
    | some p => p.default_const
    | none => none

/-! ## The type registry -/

/-- The global type-index registry state for one index space: the
per-type static slot (`none` models the `usize::MAX` sentinel of the
`static INDEX: AtomicUsize` in src/property_impl.rs lines 142-143 and
src/entity.rs lines 133-134) together with the global monotonic
counter. -/
structure TypeRegistry where
  slot : Nat → Option Nat
  counter : Nat

/-- Publishing a freshly allocated index: the claimed slot receives the
current counter value and the global counter advances (spec §4.1's
"allocates the next global counter value and publishes it"). -/
def TypeRegistry.publish (r : TypeRegistry) (t : Nat) : TypeRegistry where
  slot := fun u => if u = t then some r.counter else r.slot u
  counter := r.counter + 1

/-- `Property::index()` / `Entity::index()` (src/property_impl.rs lines
138-153, src/entity.rs lines 128-144): the fast path returns the slot's
value when initialized.  The slow path (`initialize_property_index` /
`initialize_entity_index`) lives in the absent `property_store.rs` /
`entity_store.rs`; modelled from the spec (§4.1): "the first caller that
observes unassigned allocates the next global counter value and publishes
it". -/
def TypeRegistry.indexOf (r : TypeRegistry) (t : Nat) : Nat × TypeRegistry :=
  match r.slot t with
  | some i => (i, r)
  | none => (r.counter, r.publish t)

/-- Registry invariant: every published index is below the counter, and
no two types share a published index. -/
def TypeRegistry.Inv (r : TypeRegistry) : Prop :=
  (∀ t i, r.slot t = some i → i < r.counter) ∧
  (∀ t u i, r.slot t = some i → r.slot u = some i → t = u)

/-- The registry at process start: every slot at the sentinel, counter
zero. -/
def TypeRegistry.initial : TypeRegistry :=
  ⟨fun _ => none, 0⟩

/-! ## Handle construction visibility -/

/-- Rust item visibilities, as far as the handle-encapsulation claim
needs them. -/
inductive RustVisibility
  | vis_pub
  | vis_pub_crate
  | vis_private
deriving DecidableEq, Repr

/-- The visibility of `EntityId::<E>::new` as declared in src/entity.rs
lines 25-31: the doc comment says "Only constructible from this crate",
but the `pub(crate)` restriction on line 27 is commented out and the
constructor is declared `pub fn new(index: usize)`. -/
def EntityId.new_visibility : RustVisibility :=
  .vis_pub

/-- Concrete property descriptors mirroring the test fixtures of
src/context.rs lines 80-98: `Age` is `Explicit` and required. -/
def pAge : PropertySpec :=
  ⟨0, 0, .Explicit, true, none, fun _ _ => 0, "Age"⟩

/-- `Vaccinated` is `Constant` with default `false` (erased to `0`). -/
def pVaccinated : PropertySpec :=
  ⟨1, 0, .Constant, false, some 0, fun _ _ => 0, "Vaccinated"⟩

/-- A `Derived` property computing from `Age`'s store: current `Age`
value plus one (a stand-in derivation that reads a dependency). -/
def pDerived : PropertySpec :=
  ⟨2, 0, .Derived, false, none,
   fun c h => (c.stores pAge.pid h).getD 0 + 1, "AgeNextYear"⟩

section Theorems

/-- Distinct positions of a pairwise-distinct projection yield distinct
values. -/
theorem getD_pid_ne (ps : List PropInfo)
    (hp : (ps.map (·.pid)).Pairwise (· ≠ ·))
    {i j : Nat} (hij : i < j) (hj : j < ps.length) :
    (ps.map (·.pid)).getD i 0 ≠ (ps.map (·.pid)).getD j 0 := by
  have hj' : j < (ps.map (·.pid)).length := by
    rw [List.length_map]; exact hj
  have hi' : i < (ps.map (·.pid)).length := lt_trans hij hj'
  rw [List.getD_eq_getElem _ _ hi', List.getD_eq_getElem _ _ hj']
  rw [List.pairwise_iff_get] at hp
  exact hp ⟨i, hi'⟩ ⟨j, hj'⟩ hij

/-- When the property type ids are pairwise distinct, the inner duplicate
search of iteration `n` finds nothing. -/
theorem dup_find_none (ps : List PropInfo)
    (hp : (ps.map (·.pid)).Pairwise (· ≠ ·))
    {n : Nat} (_h1 : 1 ≤ n) (hn : n ≤ ps.length) :
    (List.range' (n + 1) (ps.length - (n + 1))).find?
      (fun j => (ps.map (·.pid)).getD n 0 == (ps.map (·.pid)).getD j 0)
      = none := by
  rw [List.find?_eq_none]
  intro j hj
  rw [List.mem_range'_1] at hj
  have hjct : j < ps.length := by omega
  have hnj : n < j := by omega
  simp only [beq_iff_eq]
  exact getD_pid_ne ps hp hnj hjct

/-- On a list with pairwise-distinct property types, `validateSteps`
starting at iteration `n` behaves as the entity-consistency scan of the
list's tail from position `n - 1`. -/
theorem validateSteps_eq_entityScan (ps : List PropInfo)
    (hp : (ps.map (·.pid)).Pairwise (· ≠ ·)) :
    ∀ (m n : Nat), 1 ≤ n → n + m = ps.length + 1 →
      validateSteps ps (ps.map (·.pid)) (ps.getD 0 default).eid ps.length
          (List.range' n m)
        = entityScan (ps.getD 0 default).eid (ps.getD 0 default).name
            (ps.drop (n - 1)) := by
  intro m
  induction m with
  | zero =>
    intro n _ hn
    have hdrop : n - 1 = ps.length := by omega
    rw [hdrop, List.drop_length]
    rfl
  | succ m ih =>
    intro n h1 hn
    rw [List.range'_succ]
    rw [validateSteps, dup_find_none ps hp h1 (by omega)]
    have hlt : n - 1 < ps.length := by omega
    rw [List.drop_eq_getElem_cons hlt]
    have hsucc : n - 1 + 1 = n := by omega
    rw [hsucc]
    show (if (ps.getD 0 default).eid == (ps.getD (n - 1) default).eid then
        validateSteps ps (ps.map (·.pid)) (ps.getD 0 default).eid ps.length
          (List.range' (n + 1) m)
      else .error (entityMsg (ps.getD 0 default).name
        (ps.getD (n - 1) default).name)) = _
    rw [List.getD_eq_getElem _ _ hlt]
    by_cases h : (ps.getD 0 default).eid == ps[n - 1].eid
    · rw [if_pos h]
      rw [entityScan, if_pos h]
      have := ih (n + 1) (by omega) (by omega)
      simpa using this
    · rw [if_neg h]
      rw [entityScan, if_neg h]

/-- On a list of length at least 2 with pairwise-distinct property types,
`PropertyList::validate` reduces to the entity-consistency scan. -/
theorem validate_eq_entityScan (ps : List PropInfo)
    (hp : (ps.map (·.pid)).Pairwise (· ≠ ·)) (h2 : 2 ≤ ps.length) :
    PropertyList.validate ps
      = entityScan (ps.getD 0 default).eid (ps.getD 0 default).name ps := by
  unfold PropertyList.validate
  rw [if_neg (by omega)]
  have := validateSteps_eq_entityScan ps hp ps.length 1 (by omega) (by omega)
  simpa using this

/-- `entityScan` succeeds exactly when there is no mismatch, and otherwise
errs at the first mismatching position with the corresponding message. -/
theorem entityScan_spec (e0 : Nat) (n0 : String) (l : List PropInfo) :
    (firstMismatch e0 l = none → entityScan e0 n0 l = .ok ()) ∧
    (∀ k, firstMismatch e0 l = some k →
      entityScan e0 n0 l = .error (entityMsg n0 (l.getD k default).name)) := by
  induction l with
  | nil => exact ⟨fun _ => rfl, fun k hk => by simp [firstMismatch] at hk⟩
  | cons p rest ih =>
    constructor
    · intro hnone
      rw [firstMismatch] at hnone
      by_cases h : p.eid == e0
      · rw [if_pos h] at hnone
        rw [entityScan, if_pos (by rw [beq_iff_eq] at h ⊢; omega)]
        exact ih.1 (by simpa using hnone)
      · rw [if_neg h] at hnone
        exact absurd hnone (by simp)
    · intro k hk
      rw [firstMismatch] at hk
      by_cases h : p.eid == e0
      · rw [if_pos h] at hk
        rw [entityScan, if_pos (by rw [beq_iff_eq] at h ⊢; omega)]
        obtain ⟨k', hk', rfl⟩ := Option.map_eq_some'.mp hk
        simpa using ih.2 k' hk'
      · rw [if_neg h] at hk
        have hk0 : k = 0 := by simpa using hk.symm
        subst hk0
        rw [entityScan, if_neg (by rw [beq_iff_eq] at h ⊢; omega)]
        rfl

/-- The duplicate finder of the modelled initializer-list `validate`
returns nothing exactly when the property type ids are pairwise
distinct. -/
theorem dupPositions_eq_none_iff (pl : List (PropertySpec × Value)) :
    EntityPL.dupPositions pl = none ↔
      (pl.map fun q => q.1.pid).Pairwise (· ≠ ·) := by
  induction pl with
  | nil => simp [EntityPL.dupPositions]
  | cons p rest ih =>
    rw [EntityPL.dupPositions]
    constructor
    · intro h
      cases hf : rest.findIdx? (fun q => q.1.pid == p.1.pid) with
      | some k => rw [hf] at h; simp at h
      | none =>
        rw [hf] at h
        rw [Option.map_eq_none'] at h
        rw [List.map_cons, List.pairwise_cons]
        refine ⟨?_, ih.mp h⟩
        intro b hb
        rw [List.mem_map] at hb
        obtain ⟨q, hq, rfl⟩ := hb
        have hne := List.findIdx?_eq_none_iff.mp hf q hq
        rw [beq_eq_false_iff_ne] at hne
        omega
    · intro h
      rw [List.map_cons, List.pairwise_cons] at h
      have hf : rest.findIdx? (fun q => q.1.pid == p.1.pid) = none := by
        rw [List.findIdx?_eq_none_iff]
        intro q hq
        rw [beq_eq_false_iff_ne]
        have := h.1 q.1.pid (List.mem_map.mpr ⟨q, hq, rfl⟩)
        omega
      rw [hf, Option.map_eq_none']
      exact ih.mpr h.2

/-- `set_values_for_entity` leaves the allocation counters untouched. -/
theorem set_values_entityCounts (pl : List (PropertySpec × Value)) (id : Nat)
    (c : Context) :
    (set_values_for_entity pl id c).entityCounts = c.entityCounts := by
  induction pl generalizing c with
  | nil => rfl
  | cons p rest ih => exact ih (Context.set_property p.1 c id p.2)

/-- `set_values_for_entity` does not touch the store of a property type
absent from the list. -/
theorem set_values_preserve (pl : List (PropertySpec × Value)) (id : Nat)
    (c : Context) (pid i : Nat) (h : ∀ q ∈ pl, q.1.pid ≠ pid) :
    (set_values_for_entity pl id c).stores pid i = c.stores pid i := by
  induction pl generalizing c with
  | nil => rfl
  | cons p rest ih =>
    rw [set_values_for_entity]
    rw [ih (Context.set_property p.1 c id p.2) fun q hq => h q (by simp [hq])]
    have hp : p.1.pid ≠ pid := h p (by simp)
    simp only [Context.set_property, PropertyValueStore.set]
    rw [if_neg]
    rintro ⟨h1, -⟩
    omega

/-- `set_values_for_entity` writes every listed value at the handle, when
the listed property types are pairwise distinct. -/
theorem set_values_applied (pl : List (PropertySpec × Value)) (id : Nat)
    (c : Context) (hp : (pl.map fun q => q.1.pid).Pairwise (· ≠ ·)) :
    ∀ pv ∈ pl, (set_values_for_entity pl id c).stores pv.1.pid id
      = some pv.2 := by
  induction pl generalizing c with
  | nil => intro pv hpv; cases hpv
  | cons p rest ih =>
    intro pv hpv
    rw [List.map_cons, List.pairwise_cons] at hp
    rw [set_values_for_entity]
    cases hpv with
    | head =>
      have hrest : ∀ q ∈ rest, q.1.pid ≠ p.1.pid := by
        intro q hq
        have := hp.1 q.1.pid (List.mem_map.mpr ⟨q, hq, rfl⟩)
        omega
      rw [set_values_preserve rest id _ p.1.pid id hrest]
      simp [Context.set_property, PropertyValueStore.set]
    | tail _ hmem =>
      exact ih (Context.set_property p.1 c id p.2) hp.2 pv hmem

/-- On a valid, required-covering list, `add_entity` returns the next
handle of the domain and the context obtained by bumping the domain's
counter and applying the list's values at that handle. -/
theorem add_entity_ok (registry : List PropertySpec) (e : Nat)
    (pl : List (PropertySpec × Value)) (c : Context)
    (hdup : (pl.map fun q => q.1.pid).Pairwise (· ≠ ·))
    (hreq : contains_required_properties registry e pl = true) :
    Context.add_entity registry e pl c
      = (.ok (c.entityCounts e),
         set_values_for_entity pl (c.entityCounts e)
           (EntityStore.new_entity_id c e).2) := by
  have hd : EntityPL.dupPositions pl = none :=
    (dupPositions_eq_none_iff pl).mpr hdup
  rw [Context.add_entity, EntityPL.validate, hd]
  simp only [hreq, if_true]
  rfl

/-- C1: the claim says `validate()` errs whenever two elements share a
property type.  In the code, iteration `N` of the generated duplicate
check compares `property_type_ids[N]` (not `N - 1`) with the ids at
positions `N+1 .. ct-1`, so position 0 — the first tuple element — is
never compared with anything: an arity-2 list of two identical property
types validates `Ok`, as does an arity-3 list whose first two elements
coincide.  This contradicts the trait's own doc comment
(src/property_list.rs lines 28-31). -/
theorem C1_duplicate_not_detected :
    PropertyList.validate [⟨7, 3, "Age"⟩, ⟨7, 3, "Age"⟩] = .ok () ∧
    PropertyList.validate [⟨7, 3, "Age"⟩, ⟨7, 3, "Age"⟩, ⟨8, 3, "B"⟩]
      = .ok () := by
  exact ⟨rfl, rfl⟩

/-- C2: the claim says `validate()`'s verdict is invariant under
permutation of the list.  The lists `[A, A, B]` and `[B, A, A]` hold the
same multiset of property types, yet the first validates `Ok` (the
duplicate in positions 0 and 1 is missed, see C1) while the second errs
(the duplicate lands in positions 1 and 2, which the off-by-one check
does reach — and it even reports the wrong property name `B`). -/
theorem C2_validate_not_permutation_invariant :
    ([⟨1, 0, "B"⟩, ⟨0, 0, "A"⟩, ⟨0, 0, "A"⟩] : List PropInfo).Perm
      [⟨0, 0, "A"⟩, ⟨0, 0, "A"⟩, ⟨1, 0, "B"⟩] ∧
    PropertyList.validate [⟨0, 0, "A"⟩, ⟨0, 0, "A"⟩, ⟨1, 0, "B"⟩] = .ok () ∧
    PropertyList.validate [⟨1, 0, "B"⟩, ⟨0, 0, "A"⟩, ⟨0, 0, "A"⟩]
      = .error "property B appears in both position 1 and 2 in the property list" := by
  refine ⟨by decide, rfl, rfl⟩

/-- C10 counterexample: in the list `[A, B, B]` the second and third
elements belong to entity 1 while the first belongs to entity 0, yet
`validate` returns the duplicate error about positions 1 and 2 naming
only `A` — not an error naming the first property and the mismatched
property (the entity-mismatch message is a different string and `B` is
not mentioned at all). -/
theorem C10_counterexample :
    (([⟨0, 0, "A"⟩, ⟨1, 1, "B"⟩, ⟨1, 1, "B"⟩] : List PropInfo).getD 1
        default).eid
      ≠ (([⟨0, 0, "A"⟩, ⟨1, 1, "B"⟩, ⟨1, 1, "B"⟩] : List PropInfo).getD 0
        default).eid ∧
    PropertyList.validate [⟨0, 0, "A"⟩, ⟨1, 1, "B"⟩, ⟨1, 1, "B"⟩]
      = .error "property A appears in both position 1 and 2 in the property list" ∧
    "property A appears in both position 1 and 2 in the property list"
      ≠ entityMsg "A" "B" := by
  exact ⟨by decide, rfl, by decide⟩

/-- C10 (amended): for every tuple property list of arity 2 through 5
whose elements have pairwise-distinct property types, if some element's
owning entity differs from the first element's owning entity then
`validate()` returns an error naming the first property and the first
mismatched property, and if all elements share one owning entity the
entity-consistency check passes (`validate()` returns `Ok`). -/
theorem C10_entity_consistency (ps : List PropInfo)
    (hp : (ps.map (·.pid)).Pairwise (· ≠ ·))
    (h2 : 2 ≤ ps.length) (_h5 : ps.length ≤ 5) :
    (firstMismatch (ps.getD 0 default).eid ps = none →
      PropertyList.validate ps = .ok ()) ∧
    (∀ k, firstMismatch (ps.getD 0 default).eid ps = some k →
      PropertyList.validate ps
        = .error (entityMsg (ps.getD 0 default).name
            (ps.getD k default).name)) := by
  rw [validate_eq_entityScan ps hp h2]
  exact entityScan_spec _ _ ps

/-- Witness for C10 (amended): a concrete two-element list whose second
element belongs to a different entity produces exactly the
entity-mismatch error naming both properties. -/
theorem C10_entity_consistency_witness :
    PropertyList.validate [⟨0, 0, "A"⟩, ⟨1, 1, "B"⟩]
      = .error (entityMsg "A" "B") := by
  have h := (C10_entity_consistency [⟨0, 0, "A"⟩, ⟨1, 1, "B"⟩]
    (by decide) (by decide) (by decide)).2 1 rfl
  exact h

/-- C3: `Context::add_entity` fails with a descriptive error before any
state change when the list holds a duplicate property type or omits a
required property of the domain (no handle allocated, no store mutated);
on a valid list it allocates the next handle, applies every listed value
to that handle's stores, and returns the handle. -/
theorem C3_add_entity_all_or_nothing (registry : List PropertySpec) (e : Nat)
    (pl : List (PropertySpec × Value)) (c : Context) :
    ((¬ (pl.map fun q => q.1.pid).Pairwise (· ≠ ·) ∨
        contains_required_properties registry e pl = false) →
      (Context.add_entity registry e pl c).2 = c ∧
      ∃ msg, (Context.add_entity registry e pl c).1 = .error msg) ∧
    ((pl.map fun q => q.1.pid).Pairwise (· ≠ ·) →
      contains_required_properties registry e pl = true →
      (Context.add_entity registry e pl c).1 = .ok (c.entityCounts e) ∧
      (Context.add_entity registry e pl c).2.entityCounts e
        = c.entityCounts e + 1 ∧
      ∀ pv ∈ pl,
        (Context.add_entity registry e pl c).2.stores pv.1.pid
          (c.entityCounts e) = some pv.2) := by
  constructor
  · rintro (hdup | hreq)
    · have hnone : EntityPL.dupPositions pl ≠ none := fun h =>
        hdup ((dupPositions_eq_none_iff pl).mp h)
      cases hd : EntityPL.dupPositions pl with
      | none => exact absurd hd hnone
      | some t =>
        obtain ⟨i, j, nm⟩ := t
        rw [Context.add_entity, EntityPL.validate, hd]
        exact ⟨rfl, _, rfl⟩
    · rw [Context.add_entity]
      cases hv : EntityPL.validate pl with
      | error msg => exact ⟨rfl, _, rfl⟩
      | ok u =>
        cases u
        simp only [hreq, if_false]
        exact ⟨rfl, _, rfl⟩
  · intro hdup hreq
    rw [add_entity_ok registry e pl c hdup hreq]
    refine ⟨rfl, ?_, ?_⟩
    · rw [set_values_entityCounts]
      simp [EntityStore.new_entity_id]
    · intro pv hpv
      exact set_values_applied pl (c.entityCounts e) _ hdup pv hpv

/-- Witness for C3: with `Age` required, an empty initializer list is
rejected leaving the context unchanged, while the list `[(Age, 25)]`
yields handle 0. -/
theorem C3_add_entity_all_or_nothing_witness :
    (Context.add_entity [pAge] 0 [] (Context.init [pAge])).2
      = Context.init [pAge] ∧
    (Context.add_entity [pAge] 0 [(pAge, 25)] (Context.init [pAge])).1
      = .ok 0 := by
  constructor
  · exact ((C3_add_entity_all_or_nothing [pAge] 0 [] (Context.init [pAge])).1
      (Or.inr rfl)).1
  · exact ((C3_add_entity_all_or_nothing [pAge] 0 [(pAge, 25)]
      (Context.init [pAge])).2 (by simp) rfl).1

/-- C4: reading an `Explicit` property whose slot is unset fails with the
caller-error message; reading a `Constant` property whose slot is unset
fails with the internal-invariant message; the two messages are
distinct. -/
theorem C4_get_property_unset_errors (p q : PropertySpec) (c c' : Context)
    (h h' : Nat)
    (hpk : p.kind = .Explicit) (hps : c.stores p.pid h = none)
    (hqk : q.kind = .Constant) (hqs : c'.stores q.pid h' = none) :
    Context.get_property p c h = .error explicitUnsetMsg ∧
    Context.get_property q c' h' = .error constantUnsetMsg ∧
    explicitUnsetMsg ≠ constantUnsetMsg := by
  refine ⟨?_, ?_, by decide⟩
  · rw [Context.get_property, hpk]
    simp [PropertyValueStore.get, hps]
  · rw [Context.get_property, hqk]
    simp [PropertyValueStore.get, hqs]

/-- Witness for C4: in the empty initial context, reading the `Explicit`
`Age` and the never-registered `Constant` stand-in both fail, with the
two distinct messages. -/
theorem C4_get_property_unset_errors_witness :
    Context.get_property pAge (Context.init []) 0
      = .error explicitUnsetMsg ∧
    Context.get_property ⟨9, 0, .Constant, false, some 0, fun _ _ => 0, "C"⟩
      (Context.init []) 0 = .error constantUnsetMsg ∧
    explicitUnsetMsg ≠ constantUnsetMsg :=
  C4_get_property_unset_errors pAge
    ⟨9, 0, .Constant, false, some 0, fun _ _ => 0, "C"⟩
    (Context.init []) (Context.init []) 0 0 rfl rfl rfl rfl

/-- C5: for a `Derived` property, `get_property` returns exactly the
derivation function applied to the current orchestrator and handle
(recomputed on every call), and the framework reads no backing store: the
result depends on the context only through the derivation function's
value. -/
theorem C5_get_property_derived (p : PropertySpec)
    (hk : p.kind = .Derived) (c : Context) (h : Nat) :
    Context.get_property p c h = .ok (p.compute_derived c h) ∧
    (∀ c' : Context, p.compute_derived c' h = p.compute_derived c h →
      Context.get_property p c' h = Context.get_property p c h) := by
  constructor
  · rw [Context.get_property, hk]
  · intro c' hagree
    rw [Context.get_property, hk, Context.get_property, hk, hagree]

/-- Witness for C5: the `Age + 1` derived property computes 1 on the
empty context, and recomputes 42 after its dependency `Age` is set to
41 — reflecting the dependency's current value. -/
theorem C5_get_property_derived_witness :
    Context.get_property pDerived (Context.init []) 0 = .ok 1 ∧
    Context.get_property pDerived
      (Context.set_property pAge (Context.init []) 0 41) 0 = .ok 42 := by
  constructor
  · exact (C5_get_property_derived pDerived rfl (Context.init []) 0).1
  · have := (C5_get_property_derived pDerived rfl
      (Context.set_property pAge (Context.init []) 0 41) 0).1
    rw [this]
    simp [pDerived, pAge, Context.set_property, PropertyValueStore.set,
      Context.init]

/-- C6: for an `Explicit` property, `set_property` followed by
`get_property` at the same handle returns the value just written. -/
theorem C6_set_get_round_trip (p : PropertySpec)
    (hk : p.kind = .Explicit) (c : Context) (h : Nat) (v : Value) :
    Context.get_property p (Context.set_property p c h v) h = .ok v := by
  rw [Context.get_property, hk]
  simp [Context.set_property, PropertyValueStore.set, PropertyValueStore.get]

/-- Witness for C6: writing `Age := 26` and reading it back returns 26. -/
theorem C6_set_get_round_trip_witness :
    Context.get_property pAge
      (Context.set_property pAge (Context.init []) 0 26) 0 = .ok 26 :=
  C6_set_get_round_trip pAge rfl (Context.init []) 0 26

/-- C7: for a `Constant` property `p` with default `d` whose store slot
at the next handle still holds its seeded default, an entity created by
`add_entity` from a valid list not mentioning `p` reads `d` on the first
`get_property`, and reads the new value after a subsequent
`set_property`. -/
theorem C7_constant_default_propagation (registry : List PropertySpec)
    (p : PropertySpec) (e : Nat) (pl : List (PropertySpec × Value))
    (c : Context) (d v : Value)
    (hk : p.kind = .Constant)
    (hdup : (pl.map fun q => q.1.pid).Pairwise (· ≠ ·))
    (hreq : contains_required_properties registry e pl = true)
    (hnp : ∀ q ∈ pl, q.1.pid ≠ p.pid)
    (hseed : c.stores p.pid (c.entityCounts e) = some d) :
    (Context.add_entity registry e pl c).1 = .ok (c.entityCounts e) ∧
    Context.get_property p (Context.add_entity registry e pl c).2
      (c.entityCounts e) = .ok d ∧
    Context.get_property p
      (Context.set_property p (Context.add_entity registry e pl c).2
        (c.entityCounts e) v) (c.entityCounts e) = .ok v := by
  rw [add_entity_ok registry e pl c hdup hreq]
  refine ⟨rfl, ?_, ?_⟩
  · rw [Context.get_property, hk]
    have hpre := set_values_preserve pl (c.entityCounts e)
      (EntityStore.new_entity_id c e).2 p.pid (c.entityCounts e) hnp
    simp only [PropertyValueStore.get, hpre]
    have : (EntityStore.new_entity_id c e).2.stores = c.stores := rfl
    rw [this, hseed]
  · rw [Context.get_property, hk]
    simp [Context.set_property, PropertyValueStore.set, PropertyValueStore.get]

/-- Witness for C7: `Vaccinated` (Constant, default 0) on an entity
created with only `Age` reads 0 first, and 1 after being overridden. -/
theorem C7_constant_default_propagation_witness :
    (Context.add_entity [pAge, pVaccinated] 0 [(pAge, 40)]
      (Context.init [pAge, pVaccinated])).1 = .ok 0 ∧
    Context.get_property pVaccinated
      (Context.add_entity [pAge, pVaccinated] 0 [(pAge, 40)]
        (Context.init [pAge, pVaccinated])).2 0 = .ok 0 ∧
    Context.get_property pVaccinated
      (Context.set_property pVaccinated
        (Context.add_entity [pAge, pVaccinated] 0 [(pAge, 40)]
          (Context.init [pAge, pVaccinated])).2 0 1) 0 = .ok 1 := by
  have h := C7_constant_default_propagation [pAge, pVaccinated] pVaccinated 0
    [(pAge, 40)] (Context.init [pAge, pVaccinated]) 0 1 rfl
    (by simp) rfl (by simp [pAge, pVaccinated]) rfl
  exact h

/-- C8: the claim says handles are constructible only by the allocator
and client code cannot construct an `EntityId<E>`.  In src/entity.rs the
`pub(crate)` restriction is commented out: `EntityId::new` is `pub`, and
the client binary src/bin/integration.rs calls `PersonId::new(0)`
directly (lines 48-62), contradicting the constructor's own doc comment
("Only constructible from this crate"). -/
theorem C8_handle_constructor_public :
    EntityId.new_visibility = RustVisibility.vis_pub ∧
    EntityId.new_visibility ≠ RustVisibility.vis_pub_crate ∧
    EntityId.new_visibility ≠ RustVisibility.vis_private :=
  ⟨rfl, by decide, by decide⟩

/-- `indexOf` on an initialized slot takes the fast path. -/
theorem indexOf_slot_some {r : TypeRegistry} {t i : Nat}
    (h : r.slot t = some i) : r.indexOf t = (i, r) := by
  rw [TypeRegistry.indexOf, h]

/-- `indexOf` on the sentinel takes the slow path: allocate the counter
value, publish it, bump the counter. -/
theorem indexOf_slot_none {r : TypeRegistry} {t : Nat}
    (h : r.slot t = none) :
    r.indexOf t = (r.counter, r.publish t) := by
  rw [TypeRegistry.indexOf, h]

/-- The published slot holds the allocated index. -/
theorem publish_slot_self (r : TypeRegistry) (t : Nat) :
    (r.publish t).slot t = some r.counter := by
  simp [TypeRegistry.publish]

/-- Publishing one type's index leaves the other slots unchanged. -/
theorem publish_slot_other (r : TypeRegistry) (t u : Nat) (h : u ≠ t) :
    (r.publish t).slot u = r.slot u := by
  simp [TypeRegistry.publish, h]

/-- C9: under the registry invariant, `indexOf` returns the same index on
a repeated call for the same type, distinct types receive distinct
indices, and the invariant is preserved. -/
theorem C9_index_stable_and_distinct (r : TypeRegistry) (hr : r.Inv)
    (t u : Nat) (hne : t ≠ u) :
    ((r.indexOf t).2.indexOf t).1 = (r.indexOf t).1 ∧
    ((r.indexOf t).2.indexOf u).1 ≠ (r.indexOf t).1 ∧
    (r.indexOf t).2.Inv := by
  obtain ⟨hlt, hinj⟩ := hr
  cases hs : r.slot t with
  | some i =>
    rw [indexOf_slot_some hs]
    refine ⟨?_, ?_, hlt, hinj⟩
    · show (r.indexOf t).1 = i
      rw [indexOf_slot_some hs]
    · show (r.indexOf u).1 ≠ i
      cases hu : r.slot u with
      | some j =>
        rw [indexOf_slot_some hu]
        intro hji
        exact hne (hinj t u i hs (hji ▸ hu))
      | none =>
        rw [indexOf_slot_none hu]
        have := hlt t i hs
        show r.counter ≠ i
        omega
  | none =>
    rw [indexOf_slot_none hs]
    refine ⟨?_, ?_, ?_, ?_⟩
    · show ((r.publish t).indexOf t).1 = r.counter
      rw [indexOf_slot_some (publish_slot_self r t)]
    · show ((r.publish t).indexOf u).1 ≠ r.counter
      cases hu : r.slot u with
      | some j =>
        have hsu : (r.publish t).slot u = some j := by
          rw [publish_slot_other r t u (Ne.symm hne)]
          exact hu
        rw [indexOf_slot_some hsu]
        have := hlt u j hu
        show j ≠ r.counter
        omega
      | none =>
        have hsu : (r.publish t).slot u = none := by
          rw [publish_slot_other r t u (Ne.symm hne)]
          exact hu
        rw [indexOf_slot_none hsu]
        show (r.publish t).counter ≠ r.counter
        show r.counter + 1 ≠ r.counter
        omega
    · intro x i hx
      show i < r.counter + 1
      by_cases hxt : x = t
      · subst hxt
        rw [publish_slot_self r x] at hx
        cases hx
        omega
      · rw [publish_slot_other r t x hxt] at hx
        have := hlt x i hx
        omega
    · intro x y i hx hy
      by_cases hxt : x = t <;> by_cases hyt : y = t
      · omega
      · subst hxt
        rw [publish_slot_self r x] at hx
        rw [publish_slot_other r x y hyt] at hy
        cases hx
        have := hlt y r.counter hy
        omega
      · subst hyt
        rw [publish_slot_self r y] at hy
        rw [publish_slot_other r y x hxt] at hx
        cases hy
        have := hlt x r.counter hx
        omega
      · rw [publish_slot_other r t x hxt] at hx
        rw [publish_slot_other r t y hyt] at hy
        exact hinj x y i hx hy

/-- Witness for C9: from the start-up registry, type 0 gets index 0
stably and type 1 gets a different index. -/
theorem C9_index_stable_and_distinct_witness :
    ((TypeRegistry.initial.indexOf 0).2.indexOf 0).1
      = (TypeRegistry.initial.indexOf 0).1 ∧
    ((TypeRegistry.initial.indexOf 0).2.indexOf 1).1
      ≠ (TypeRegistry.initial.indexOf 0).1 ∧
    (TypeRegistry.initial.indexOf 0).2.Inv := by
  exact C9_index_stable_and_distinct TypeRegistry.initial
    ⟨fun t i h => by simp [TypeRegistry.initial] at h,
     fun t u i h => by simp [TypeRegistry.initial] at h⟩
    0 1 (by decide)

end Theorems

end IxaEntities
